import Mathlib

/-!
Verification of `send_sensor_data.py` (sandiego_dataflow_sql publisher).

Shallow embedding of the pub/sub replay script: the clock model
(`compute_sleep_secs`), the batch/publish logic (`publish`), the
simulation driver loop (`simulate`), the stream peek (`peek_timestamp`)
and the main pipeline (`runMain`).

Modelling conventions:
- Instants (`datetime.datetime` values) are rationals counting seconds;
  Python `datetime` subtraction produces a `timedelta`, whose `.seconds`
  field is the normalized seconds-of-day component: for a (possibly
  negative, possibly fractional) difference of `t` seconds it equals
  `⌊t⌋ % 86400` with the nonnegative remainder.  This is `secsField`.
- The float `speedFactor` and float division are modelled exactly over ℚ.
- Record parsing (`get_timestamp`, i.e. `strptime` on the first CSV
  column) and encoding (`convert_csv_to_json`) are external collaborators
  of the core loop; they are parameters of the environment: parsing may
  fail (Python raises), encoding is a function on raw lines.
- Wall time advances only at the observable suspension points of the
  loop: a publish call consumes `publishLatency k` seconds (`k` = number
  of publishes already made) and `time.sleep(s)` consumes exactly `s`.
- `publish` on an empty list is a crash: line 31 of the source executes
  `print(events[0])` before the `numobs > 0` guard, raising `IndexError`.
-/

namespace SendSensorData

/-- The `.seconds` field of the Python `timedelta` obtained by subtracting
two instants that are `t` seconds apart: the timedelta is normalized to
`days, seconds, microseconds` with `0 ≤ seconds < 86400`, so the field is
`⌊t⌋ % 86400` (nonnegative remainder). -/
def secsField (t : ℚ) : ℤ := ⌊t⌋ % 86400

/-- The three fixed quantities of the simulation clock: `programStart`
(wall instant captured at startup), `firstObsTime` (peeked timestamp of
the first data record) and `speedFactor` (the `--speedFactor` argument). -/
structure SimCfg where
  firstObsTime : ℚ
  programStart : ℚ
  speedFactor : ℚ
  deriving DecidableEq, Repr

/-- Lines 59-62 of the source:
`time_elapsed = (utcnow() - programStart).seconds`,
`sim_time_elapsed = (obs_time - firstObsTime).seconds / speedFactor`,
returns `sim_time_elapsed - time_elapsed`.  The sampled `utcnow()` is the
explicit argument `now`. -/
def compute_sleep_secs (cfg : SimCfg) (obs_time now : ℚ) : ℚ :=
  let time_elapsed : ℤ := secsField (now - cfg.programStart)
  let sim_time_elapsed : ℚ := (secsField (obs_time - cfg.firstObsTime) : ℚ) / cfg.speedFactor
  sim_time_elapsed - (time_elapsed : ℚ)

/-- Lines 29-35 of the source.  `print(events[0])` runs unconditionally,
so an empty `events` list raises `IndexError` (`none`); otherwise the
`numobs > 0` guard passes and every event is published in order
(`some events`). -/
def publish {E : Type} (events : List E) : Option (List E) :=
  match events with
  | [] => none
  | _ :: _ => if 0 < events.length then some events else some []

/-- The external collaborators the driver loop calls per record:
`get_timestamp` (strptime of the first CSV field, may raise → `Option`),
`convert_csv_to_json` (encoding of a raw line), and the wall-clock cost
of the `k`-th publish call. -/
structure SimEnv (L E : Type) where
  get_timestamp : L → Option ℚ
  convert_csv_to_json : L → E
  publishLatency : ℕ → ℚ

/-- Outcome of a run of `simulate`: normal completion with the list of
published batches in emission order; a crash of `strptime` on record
`idx` (published batches and the unpublished accumulator are reported);
or the `IndexError` crash of `publish` on an empty batch. -/
inductive SimResult (E : Type) where
  | ok (batches : List (List E))
  | abortedParse (batches : List (List E)) (pending : List E) (idx : ℕ)
  | abortedPublish (batches : List (List E)) (idx : ℕ)
  deriving DecidableEq, Repr

/-- Lines 57-85 of the source: the driver loop.  State threaded through
the recursion: remaining input lines, current wall time `now`, the
accumulator `topublish`, the batches already published, and the index of
the next record.  Per line: parse the timestamp (crash aborts); if
`compute_sleep_secs > 1`, publish the accumulator, recompute the sleep
against the advanced clock and sleep exactly that long when positive;
then append the encoded record.  On exhaustion, one final publish. -/
def simulate {L E : Type} (cfg : SimCfg) (env : SimEnv L E) :
    List L → ℚ → List E → List (List E) → ℕ → SimResult E
  | [], _now, topublish, batches, idx =>
      match publish topublish with
      | none => .abortedPublish batches idx
      | some sent => .ok (batches ++ [sent])
  | line :: rest, now, topublish, batches, idx =>
      match env.get_timestamp line with
      | none => .abortedParse batches topublish idx
      | some obs_time =>
        if compute_sleep_secs cfg obs_time now > 1 then
          match publish topublish with
          | none => .abortedPublish batches idx
          | some sent =>
            let now1 := now + env.publishLatency batches.length
            let to_sleep_secs := compute_sleep_secs cfg obs_time now1
            let now2 := if to_sleep_secs > 0 then now1 + to_sleep_secs else now1
            simulate cfg env rest now2 [env.convert_csv_to_json line]
              (batches ++ [sent]) (idx + 1)
        else
          simulate cfg env rest now (topublish ++ [env.convert_csv_to_json line])
            batches (idx + 1)

/-- A readable file position over a fixed list of lines: the model of the
opened gzip stream (`ifp`). -/
structure InFile (L : Type) where
  lines : List L
  pos : ℕ
  deriving DecidableEq, Repr

/-- `ifp.tell()`. -/
def tell {L : Type} (ifp : InFile L) : ℕ := ifp.pos

/-- `ifp.readline()`: the line at the current position (`none` at EOF,
where Python returns an empty bytestring whose timestamp parse fails)
and the advanced stream. -/
def readline {L : Type} (ifp : InFile L) : Option L × InFile L :=
  (ifp.lines.get? ifp.pos, ⟨ifp.lines, ifp.pos + 1⟩)

/-- `ifp.seek(pos)`. -/
def seek {L : Type} (ifp : InFile L) (p : ℕ) : InFile L := ⟨ifp.lines, p⟩

/-- Lines 87-92 of the source: `pos = tell(); line = readline(); seek(pos)`;
returns the parsed timestamp of the next line and the restored stream. -/
def peek_timestamp {L E : Type} (env : SimEnv L E) (ifp : InFile L) :
    Option ℚ × InFile L :=
  let pos := tell ifp
  let r := readline ifp
  let ifp2 := seek r.2 pos
  (r.1.bind env.get_timestamp, ifp2)

/-- Lines 112-118 of the source (the part of `__main__` that drives the
core; topic setup is an external collaborator): skip the header line,
peek the first observation timestamp to seed `firstObsTime`, then run
`simulate` on the remaining lines.  `now0` is the wall time when the
loop starts.  No validation of `speedFactor` happens anywhere on this
path — `argparse` accepts any float. -/
def runMain {L E : Type} (env : SimEnv L E) (speedFactor : ℚ)
    (programStart now0 : ℚ) (fileLines : List L) : Option (SimResult E) :=
  let ifp0 : InFile L := ⟨fileLines, 0⟩
  let r1 := readline ifp0
  let pk := peek_timestamp env r1.2
  match pk.1 with
  | none => none
  | some firstObsTime =>
      some (simulate ⟨firstObsTime, programStart, speedFactor⟩ env
        (pk.2.lines.drop pk.2.pos) now0 [] [] 0)

/-- Environment for concrete runs: a line is its own timestamp, encoding
is the identity, publishing is instantaneous. -/
def idEnv : SimEnv ℚ ℚ :=
  ⟨fun l => some l, fun l => l, fun _ => 0⟩

/-- Environment in which negative lines have an unparsable timestamp. -/
def failNegEnv : SimEnv ℚ ℚ :=
  ⟨fun l => if l < 0 then none else some l, fun l => l, fun _ => 0⟩

/-! ## Helper lemmas -/

theorem publish_nil {E : Type} : publish ([] : List E) = none := rfl

theorem publish_ne_nil {E : Type} {events : List E} (h : events ≠ []) :
    publish events = some events := by
  cases events with
  | nil => exact absurd rfl h
  | cons a tl => simp [publish]

theorem secsField_nonneg (t : ℚ) : 0 ≤ secsField t :=
  Int.emod_nonneg _ (by norm_num)

theorem secsField_lt_day (t : ℚ) : secsField t < 86400 :=
  Int.emod_lt_of_pos _ (by norm_num)

theorem secsField_eq_floor {t : ℚ} (h0 : 0 ≤ t) (h1 : t < 86400) :
    secsField t = ⌊t⌋ := by
  unfold secsField
  have hf0 : 0 ≤ ⌊t⌋ := Int.floor_nonneg.2 h0
  have hf1 : ⌊t⌋ < 86400 := Int.floor_lt.2 (by exact_mod_cast h1)
  exact Int.emod_eq_of_lt hf0 hf1

theorem secsField_zero : secsField 0 = 0 := by
  norm_num [secsField]

theorem secsField_add_day (t : ℚ) : secsField (t + 86400) = secsField t := by
  unfold secsField
  have h : (86400 : ℚ) = ((86400 : ℤ) : ℚ) := by norm_num
  rw [h, Int.floor_add_int]
  omega

/-- The sleep computed for the record whose timestamp equals
`firstObsTime` is minus the wall-clock seconds field: the simulated
elapsed part vanishes. -/
theorem compute_sleep_secs_firstObs (cfg : SimCfg) (now : ℚ) :
    compute_sleep_secs cfg cfg.firstObsTime now =
      -(secsField (now - cfg.programStart) : ℚ) := by
  simp [compute_sleep_secs, sub_self, secsField_zero]

theorem compute_sleep_secs_firstObs_nonpos (cfg : SimCfg) (now : ℚ) :
    compute_sleep_secs cfg cfg.firstObsTime now ≤ 0 := by
  rw [compute_sleep_secs_firstObs]
  have := secsField_nonneg (now - cfg.programStart)
  simp only [neg_nonpos]
  exact_mod_cast this

/-- With a speed factor of at least 86399 (the largest value the seconds
field can take), the computed sleep can never exceed 1 second. -/
theorem compute_sleep_secs_le_one_of_large (cfg : SimCfg) (obs now : ℚ)
    (h : 86399 ≤ cfg.speedFactor) :
    compute_sleep_secs cfg obs now ≤ 1 := by
  have hpos : (0 : ℚ) < cfg.speedFactor := lt_of_lt_of_le (by norm_num) h
  have hs : (secsField (obs - cfg.firstObsTime) : ℚ) ≤ 86399 := by
    have := secsField_lt_day (obs - cfg.firstObsTime)
    exact_mod_cast Int.lt_add_one_iff.mp this
  have hw : (0 : ℚ) ≤ (secsField (now - cfg.programStart) : ℚ) := by
    exact_mod_cast secsField_nonneg (now - cfg.programStart)
  have hdiv : (secsField (obs - cfg.firstObsTime) : ℚ) / cfg.speedFactor ≤ 1 := by
    rw [div_le_one hpos]
    exact hs.trans h
  simp only [compute_sleep_secs]
  linarith

/-- With a negative speed factor, the computed sleep is never positive. -/
theorem compute_sleep_secs_nonpos_of_neg (cfg : SimCfg) (obs now : ℚ)
    (h : cfg.speedFactor < 0) :
    compute_sleep_secs cfg obs now ≤ 0 := by
  have hs : (0 : ℚ) ≤ (secsField (obs - cfg.firstObsTime) : ℚ) := by
    exact_mod_cast secsField_nonneg (obs - cfg.firstObsTime)
  have hw : (0 : ℚ) ≤ (secsField (now - cfg.programStart) : ℚ) := by
    exact_mod_cast secsField_nonneg (now - cfg.programStart)
  have hdiv : (secsField (obs - cfg.firstObsTime) : ℚ) / cfg.speedFactor ≤ 0 :=
    div_nonpos_of_nonneg_of_nonpos hs h.le
  simp only [compute_sleep_secs]
  linarith

/-- Loop invariant: when no record can ever require more than 1 second of
sleep, the driver never takes the flush branch, and a run from any state
whose accumulator or input is nonempty ends with a single final publish
of everything accumulated. -/
theorem simulate_no_flush {L E : Type} (cfg : SimCfg) (env : SimEnv L E)
    (hle : ∀ obs now, compute_sleep_secs cfg obs now ≤ 1) :
    ∀ (lines : List L) (now : ℚ) (tp : List E) (batches : List (List E)) (idx : ℕ),
      (∀ l ∈ lines, (env.get_timestamp l).isSome) →
      (tp ≠ [] ∨ lines ≠ []) →
      simulate cfg env lines now tp batches idx =
        .ok (batches ++ [tp ++ lines.map env.convert_csv_to_json]) := by
  intro lines
  induction lines with
  | nil =>
      intro now tp batches idx _ hne
      have htp : tp ≠ [] := by
        rcases hne with h | h
        · exact h
        · exact absurd rfl h
      simp [simulate, publish_ne_nil htp]
  | cons l rest ih =>
      intro now tp batches idx hparse hne
      obtain ⟨obs, hobs⟩ := Option.isSome_iff_exists.mp (hparse l (by simp))
      have hc : ¬ compute_sleep_secs cfg obs now > 1 := not_lt.2 (hle obs now)
      simp only [simulate, hobs]
      rw [if_neg hc]
      rw [ih now (tp ++ [env.convert_csv_to_json l]) batches (idx + 1)
        (fun x hx => hparse x (by simp [hx])) (Or.inl (by simp))]
      simp

/-- Loop invariant behind the pass-through property: whenever a run from
an intermediate state completes normally, the concatenation of the
emitted batches is everything already published, plus the accumulator,
plus the encodings of the remaining input lines, in order. -/
theorem simulate_ok_join {L E : Type} (cfg : SimCfg) (env : SimEnv L E) :
    ∀ (lines : List L) (now : ℚ) (tp : List E) (batches : List (List E)) (idx : ℕ)
      (out : List (List E)),
      simulate cfg env lines now tp batches idx = .ok out →
      out.flatten = batches.flatten ++ tp ++ lines.map env.convert_csv_to_json := by
  intro lines
  induction lines with
  | nil =>
      intro now tp batches idx out h
      cases tp with
      | nil => simp [simulate, publish_nil] at h
      | cons a tl =>
          simp only [simulate, publish_ne_nil (List.cons_ne_nil a tl)] at h
          rw [SimResult.ok.injEq] at h
          rw [← h]
          simp
  | cons l rest ih =>
      intro now tp batches idx out h
      rcases hobs : env.get_timestamp l with _ | obs
      · simp [simulate, hobs] at h
      · simp only [simulate, hobs] at h
        by_cases hc : compute_sleep_secs cfg obs now > 1
        · rw [if_pos hc] at h
          cases tp with
          | nil => simp [publish_nil] at h
          | cons a tl =>
              rw [publish_ne_nil (List.cons_ne_nil a tl)] at h
              have hj := ih _ _ _ _ _ h
              rw [hj]
              simp
        · rw [if_neg hc] at h
          have hj := ih _ _ _ _ _ h
          rw [hj]
          simp

/-- Loop invariant behind the malformed-record property: if every line of
`pre` parses and the accumulator is nonempty, a run over
`pre ++ bad :: post` with an unparsable `bad` aborts exactly at the index
of `bad`, having flushed or retained precisely the records before it; the
lines of `post` are never examined. -/
theorem simulate_parse_abort {L E : Type} (cfg : SimCfg) (env : SimEnv L E)
    (bad : L) (hbad : env.get_timestamp bad = none) (post : List L) :
    ∀ (pre : List L) (now : ℚ) (tp : List E) (batches : List (List E)) (idx : ℕ),
      (∀ l ∈ pre, (env.get_timestamp l).isSome) → tp ≠ [] →
      ∃ batches2 pending,
        simulate cfg env (pre ++ bad :: post) now tp batches idx =
          .abortedParse batches2 pending (idx + pre.length) ∧
        batches2.flatten ++ pending =
          batches.flatten ++ tp ++ pre.map env.convert_csv_to_json := by
  intro pre
  induction pre with
  | nil =>
      intro now tp batches idx _ htp
      exact ⟨batches, tp, by simp [simulate, hbad], by simp⟩
  | cons p pre' ih =>
      intro now tp batches idx hparse htp
      obtain ⟨obs, hobs⟩ := Option.isSome_iff_exists.mp (hparse p (by simp))
      have hidx : ∀ n : ℕ, idx + 1 + n = idx + (n + 1) := by omega
      by_cases hc : compute_sleep_secs cfg obs now > 1
      · obtain ⟨b2, pending, heq, hjoin⟩ :=
          ih (let now1 := now + env.publishLatency batches.length
              let s := compute_sleep_secs cfg obs now1
              if s > 0 then now1 + s else now1)
            [env.convert_csv_to_json p] (batches ++ [tp]) (idx + 1)
            (fun x hx => hparse x (by simp [hx])) (by simp)
        refine ⟨b2, pending, ?_, ?_⟩
        · simp only [List.cons_append, simulate, hobs]
          rw [if_pos hc, publish_ne_nil htp]
          exact heq.trans (by rw [List.length_cons, hidx])
        · rw [hjoin]
          simp
      · obtain ⟨b2, pending, heq, hjoin⟩ :=
          ih now (tp ++ [env.convert_csv_to_json p]) batches (idx + 1)
            (fun x hx => hparse x (by simp [hx])) (by simp)
        refine ⟨b2, pending, ?_, ?_⟩
        · simp only [List.cons_append, simulate, hobs]
          rw [if_neg hc]
          exact heq.trans (by rw [List.length_cons, hidx])
        · rw [hjoin]
          simp

/-! ## Claims -/

/-- C1: for every finite input on which the run completes, the encoded
records emitted across all batches (the in-loop flushes plus the final
flush on exhaustion), concatenated in emission order, are exactly the
encodings of the input records in source order: no loss, no duplication
across flush boundaries, no reordering. -/
theorem c1_pass_through {L E : Type} (cfg : SimCfg) (env : SimEnv L E)
    (lines : List L) (now0 : ℚ) (out : List (List E))
    (h : simulate cfg env lines now0 [] [] 0 = .ok out) :
    out.flatten = lines.map env.convert_csv_to_json := by
  have hj := simulate_ok_join cfg env lines now0 [] [] 0 out h
  simpa using hj

theorem c1_witness :
    ([[(3 : ℚ), 4]] : List (List ℚ)).flatten =
      ([3, 4] : List ℚ).map idEnv.convert_csv_to_json :=
  c1_pass_through ⟨3, 0, 1⟩ idEnv [3, 4] 0 [[3, 4]]
    (by norm_num [simulate, compute_sleep_secs, secsField, publish, idEnv])

/-- C2: the clock model returns simElapsed minus wallElapsed, where
wallElapsed is the whole seconds between now and programStart and
simElapsed is the whole seconds between obsTime and firstObsTime divided
by speedFactor, the division performed after the truncation to whole
seconds.  Stated for elapsed durations within [0, 86400), where the
whole seconds of a difference is its floor; outside that range the
seconds field wraps, which is the object of C9. -/
theorem c2_clock_model (cfg : SimCfg) (obs_time now : ℚ)
    (hw0 : 0 ≤ now - cfg.programStart) (hw1 : now - cfg.programStart < 86400)
    (hs0 : 0 ≤ obs_time - cfg.firstObsTime)
    (hs1 : obs_time - cfg.firstObsTime < 86400) :
    compute_sleep_secs cfg obs_time now =
      (⌊obs_time - cfg.firstObsTime⌋ : ℚ) / cfg.speedFactor -
        (⌊now - cfg.programStart⌋ : ℚ) := by
  simp only [compute_sleep_secs]
  rw [secsField_eq_floor hs0 hs1, secsField_eq_floor hw0 hw1]

theorem c2_witness :
    compute_sleep_secs ⟨0, 0, 2⟩ 3 1 =
      (⌊(3 : ℚ) - 0⌋ : ℚ) / 2 - (⌊(1 : ℚ) - 0⌋ : ℚ) :=
  c2_clock_model ⟨0, 0, 2⟩ 3 1 (by norm_num) (by norm_num) (by norm_num)
    (by norm_num)

/-- C3 (a code bug): the claim says flushing an empty accumulator is a
no-op publish that completes without error, and the `numobs > 0` guard
in the code shows that is the intent; but line 31 of the source runs
`print(events[0])` before that guard, so publishing an empty batch
raises `IndexError`.  In particular the final flush on an exhausted
source with an empty accumulator crashes instead of succeeding. -/
theorem c3_empty_publish_crashes :
    publish ([] : List ℚ) = none ∧
      simulate ⟨0, 0, 1⟩ idEnv ([] : List ℚ) 0 [] [] 0 =
        SimResult.abortedPublish [] 0 :=
  ⟨rfl, rfl⟩

/-- C4 counterexample: no InvalidConfig rejection exists in the code.
The concrete run configured with speedFactor = −1 over a header line and
two records is not rejected before reading: it reads both records,
processes them and publishes them in the final batch. -/
theorem c4_counterexample :
    runMain idEnv (-1) 0 0 [100, 0, 1/2] = some (SimResult.ok [[0, 1/2]]) := by
  norm_num [runMain, readline, peek_timestamp, tell, seek, idEnv, simulate,
    compute_sleep_secs, secsField, publish]

/-- C4 amended: the code never validates speedFactor; with a negative
speedFactor the run is not rejected — every record is read, the computed
sleep is never positive so the driver never flushes mid-loop and never
sleeps, and the whole input is published as the single final batch. -/
theorem c4_negative_speed_not_rejected {L E : Type} (cfg : SimCfg)
    (env : SimEnv L E) (lines : List L) (now0 : ℚ)
    (hspeed : cfg.speedFactor < 0)
    (hparse : ∀ l ∈ lines, (env.get_timestamp l).isSome)
    (hne : lines ≠ []) :
    (∀ obs now, compute_sleep_secs cfg obs now ≤ 0) ∧
      simulate cfg env lines now0 [] [] 0 =
        SimResult.ok [lines.map env.convert_csv_to_json] := by
  have hle : ∀ obs now, compute_sleep_secs cfg obs now ≤ 0 :=
    fun obs now => compute_sleep_secs_nonpos_of_neg cfg obs now hspeed
  refine ⟨hle, ?_⟩
  have hr := simulate_no_flush cfg env
    (fun obs now => (hle obs now).trans (by norm_num)) lines now0 [] [] 0
    hparse (Or.inr hne)
  simpa using hr

theorem c4_witness :
    (∀ obs now, compute_sleep_secs ⟨0, 0, -1⟩ obs now ≤ 0) ∧
      simulate ⟨0, 0, -1⟩ idEnv [5, 7] 0 [] [] 0 = SimResult.ok [[5, 7]] :=
  c4_negative_speed_not_rejected ⟨0, 0, -1⟩ idEnv [5, 7] 0 (by norm_num)
    (by intro l hl; simp [idEnv]) (by simp)

/-- C5: on a pulled record, the driver flushes exactly when the computed
sleep strictly exceeds 1 second; after a flush it recomputes the sleep
against the advanced wall clock, advances the clock by exactly the
recomputed value when that value is strictly positive and otherwise does
not sleep; and the encoded record is appended to the accumulator after
this decision in both branches. -/
theorem c5_flush_decision {L E : Type} (cfg : SimCfg) (env : SimEnv L E)
    (line : L) (rest : List L) (now : ℚ) (tp : List E)
    (batches : List (List E)) (idx : ℕ) (obs : ℚ)
    (hparse : env.get_timestamp line = some obs) (htp : tp ≠ []) :
    (compute_sleep_secs cfg obs now > 1 →
      simulate cfg env (line :: rest) now tp batches idx =
        simulate cfg env rest
          (let now1 := now + env.publishLatency batches.length
           let to_sleep_secs := compute_sleep_secs cfg obs now1
           if to_sleep_secs > 0 then now1 + to_sleep_secs else now1)
          [env.convert_csv_to_json line] (batches ++ [tp]) (idx + 1)) ∧
    (¬ compute_sleep_secs cfg obs now > 1 →
      simulate cfg env (line :: rest) now tp batches idx =
        simulate cfg env rest now (tp ++ [env.convert_csv_to_json line])
          batches (idx + 1)) := by
  constructor
  · intro hc
    simp only [simulate, hparse]
    rw [if_pos hc, publish_ne_nil htp]
  · intro hc
    simp only [simulate, hparse]
    rw [if_neg hc]

theorem c5_witness :
    (compute_sleep_secs ⟨0, 0, 1⟩ 5 0 > 1 →
      simulate ⟨0, 0, 1⟩ idEnv [5] 0 [9] [] 0 =
        simulate ⟨0, 0, 1⟩ idEnv []
          (let now1 := (0 : ℚ) + idEnv.publishLatency 0
           let to_sleep_secs := compute_sleep_secs ⟨0, 0, 1⟩ 5 now1
           if to_sleep_secs > 0 then now1 + to_sleep_secs else now1)
          [idEnv.convert_csv_to_json 5] ([] ++ [[9]]) (0 + 1)) ∧
    (¬ compute_sleep_secs ⟨0, 0, 1⟩ 5 0 > 1 →
      simulate ⟨0, 0, 1⟩ idEnv [5] 0 [9] [] 0 =
        simulate ⟨0, 0, 1⟩ idEnv [] 0 ([9] ++ [idEnv.convert_csv_to_json 5])
          [] (0 + 1)) :=
  c5_flush_decision ⟨0, 0, 1⟩ idEnv 5 [] 0 [9] [] 0 5 rfl (by simp)

/-- C6: with three records timestamped T+0, T+0.5 and T+2 seconds,
speedFactor 1, zero publish latency and programStart equal to the wall
time at the first pull, the driver flushes exactly twice: the first
flush, triggered while evaluating record 2 and before appending it,
contains records 0 and 1; the final flush on exhaustion contains record
2 alone. -/
theorem c6_three_records :
    simulate ⟨0, 0, 1⟩ idEnv [0, 1/2, 2] 0 [] [] 0 =
      SimResult.ok [[0, 1/2], [2]] := by
  norm_num [simulate, compute_sleep_secs, secsField, publish, idEnv]

/-- C7 counterexample: no finite speedFactor, however large, makes the
computed sleep nonpositive for every record and every wall time: for any
threshold S there is a speed above it (max S 1) and a record (seconds
field 86399, observed when now = programStart) whose computed sleep
86399 / speed is strictly positive. -/
theorem c7_counterexample :
    ¬ ∃ S : ℚ, ∀ cfg : SimCfg, S ≤ cfg.speedFactor →
        ∀ obs now : ℚ, compute_sleep_secs cfg obs now ≤ 0 := by
  rintro ⟨S, hS⟩
  have h := hS ⟨0, 0, max S 1⟩ (le_max_left S 1) 86399 0
  have e1 : secsField (86399 : ℚ) = 86399 := by
    rw [secsField_eq_floor (by norm_num) (by norm_num)]
    norm_num
  have hmax : (0 : ℚ) < max S 1 := lt_of_lt_of_le one_pos (le_max_right S 1)
  have h2 : (86399 : ℚ) / max S 1 ≤ 0 := by
    simpa [compute_sleep_secs, e1, secsField_zero] using h
  have h3 : (0 : ℚ) < 86399 / max S 1 := div_pos (by norm_num) hmax
  linarith

/-- C7 amended: for a sufficiently large finite speedFactor — any value
at least 86399, the largest possible seconds field — the computed sleep
never exceeds the 1-second flush threshold (it can still be a small
positive value, so it is not always ≤ 0), hence the driver never flushes
mid-run and no sleep ever occurs regardless of record spacing: the run
completes with the whole input in the single final batch. -/
theorem c7_large_speed_no_sleep {L E : Type} (cfg : SimCfg)
    (env : SimEnv L E) (lines : List L) (now0 : ℚ)
    (hspeed : 86399 ≤ cfg.speedFactor)
    (hparse : ∀ l ∈ lines, (env.get_timestamp l).isSome)
    (hne : lines ≠ []) :
    (∀ obs now, compute_sleep_secs cfg obs now ≤ 1) ∧
      simulate cfg env lines now0 [] [] 0 =
        SimResult.ok [lines.map env.convert_csv_to_json] := by
  have hle : ∀ obs now, compute_sleep_secs cfg obs now ≤ 1 :=
    fun obs now => compute_sleep_secs_le_one_of_large cfg obs now hspeed
  refine ⟨hle, ?_⟩
  have hr := simulate_no_flush cfg env hle lines now0 [] [] 0 hparse (Or.inr hne)
  simpa using hr

theorem c7_witness :
    (∀ obs now, compute_sleep_secs ⟨0, 0, 86400⟩ obs now ≤ 1) ∧
      simulate ⟨0, 0, 86400⟩ idEnv [0, 86399] 0 [] [] 0 =
        SimResult.ok [[0, 86399]] :=
  c7_large_speed_no_sleep ⟨0, 0, 86400⟩ idEnv [0, 86399] 0 (by norm_num)
    (by intro l hl; simp [idEnv]) (by simp)

/-- C8: a record whose observation timestamp does not parse aborts the
run at exactly that record: every earlier record has been flushed or is
retained in the accumulator (nothing skipped, nothing lost), and no
later record is examined — the abort is independent of the continuation
`post`.  The first record is assumed to carry the peeked firstObsTime,
as the main pipeline guarantees. -/
theorem c8_malformed_record_aborts {L E : Type} (cfg : SimCfg)
    (env : SimEnv L E) (pre post : List L) (bad : L) (now0 : ℚ)
    (_hspeed : 0 < cfg.speedFactor)
    (hpre : ∀ l ∈ pre, (env.get_timestamp l).isSome)
    (hbad : env.get_timestamp bad = none)
    (hfirst : ∀ l ∈ pre.head?, env.get_timestamp l = some cfg.firstObsTime) :
    ∃ batches pending,
      simulate cfg env (pre ++ bad :: post) now0 [] [] 0 =
        SimResult.abortedParse batches pending pre.length ∧
      batches.flatten ++ pending = pre.map env.convert_csv_to_json := by
  cases pre with
  | nil => exact ⟨[], [], by simp [simulate, hbad], rfl⟩
  | cons p pre' =>
      have hp : env.get_timestamp p = some cfg.firstObsTime := hfirst p (by simp)
      have hc : ¬ compute_sleep_secs cfg cfg.firstObsTime now0 > 1 :=
        not_lt.2 ((compute_sleep_secs_firstObs_nonpos cfg now0).trans (by norm_num))
      obtain ⟨b2, pending, heq, hjoin⟩ :=
        simulate_parse_abort cfg env bad hbad post pre' now0
          [env.convert_csv_to_json p] [] 1
          (fun x hx => hpre x (by simp [hx])) (by simp)
      refine ⟨b2, pending, ?_, ?_⟩
      · simp only [List.cons_append, simulate, hp]
        rw [if_neg hc]
        exact heq.trans (by rw [List.length_cons, Nat.add_comm])
      · simpa using hjoin

theorem c8_witness :
    ∃ batches pending,
      simulate ⟨0, 0, 1⟩ failNegEnv [0, 1, -1, 2] 0 [] [] 0 =
        SimResult.abortedParse batches pending 2 ∧
      batches.flatten ++ pending = [0, 1].map failNegEnv.convert_csv_to_json :=
  c8_malformed_record_aborts ⟨0, 0, 1⟩ failNegEnv [0, 1] [2] (-1) 0
    (by norm_num)
    (by intro l hl; fin_cases hl <;> norm_num [failNegEnv])
    (by norm_num [failNegEnv])
    (by intro l hl; simp at hl; subst hl; norm_num [failNegEnv])

/-- C9: both elapsed-time computations in the clock model use only the
seconds-of-day component of the difference: the value always lies in the
half-open interval [0, 86400); shifting either input by 24 hours wraps
to the same computed sleep; and an observation earlier than firstObsTime
still yields a nonnegative simulated elapsed value. -/
theorem c9_seconds_field (cfg : SimCfg) (obs now : ℚ)
    (hspeed : 0 < cfg.speedFactor) :
    0 ≤ secsField (now - cfg.programStart) ∧
      secsField (now - cfg.programStart) < 86400 ∧
      0 ≤ secsField (obs - cfg.firstObsTime) ∧
      secsField (obs - cfg.firstObsTime) < 86400 ∧
      compute_sleep_secs cfg (obs + 86400) now = compute_sleep_secs cfg obs now ∧
      compute_sleep_secs cfg obs (now + 86400) = compute_sleep_secs cfg obs now ∧
      (obs < cfg.firstObsTime →
        0 ≤ (secsField (obs - cfg.firstObsTime) : ℚ) / cfg.speedFactor) := by
  refine ⟨secsField_nonneg _, secsField_lt_day _, secsField_nonneg _,
    secsField_lt_day _, ?_, ?_, ?_⟩
  · simp only [compute_sleep_secs]
    rw [show obs + 86400 - cfg.firstObsTime = obs - cfg.firstObsTime + 86400 by ring,
      secsField_add_day]
  · simp only [compute_sleep_secs]
    rw [show now + 86400 - cfg.programStart = now - cfg.programStart + 86400 by ring,
      secsField_add_day]
  · intro _
    exact div_nonneg (by exact_mod_cast secsField_nonneg _) hspeed.le

theorem c9_witness :
    0 ≤ secsField ((0 : ℚ) - 0) ∧ secsField ((0 : ℚ) - 0) < 86400 ∧
      0 ≤ secsField ((-1 : ℚ) - 0) ∧ secsField ((-1 : ℚ) - 0) < 86400 ∧
      compute_sleep_secs ⟨0, 0, 1⟩ ((-1) + 86400) 0 =
        compute_sleep_secs ⟨0, 0, 1⟩ (-1) 0 ∧
      compute_sleep_secs ⟨0, 0, 1⟩ (-1) (0 + 86400) =
        compute_sleep_secs ⟨0, 0, 1⟩ (-1) 0 ∧
      ((-1 : ℚ) < 0 → 0 ≤ (secsField ((-1 : ℚ) - 0) : ℚ) / 1) :=
  c9_seconds_field ⟨0, 0, 1⟩ (-1) 0 (by norm_num)

/-- C10: peeking the first observation timestamp does not consume the
record: the stream returned by peek_timestamp equals the input stream;
when the peek succeeds, the next readline returns exactly the record
whose timestamp was peeked; seeding firstObsTime with that timestamp
makes the simulated elapsed part of that record zero, so its computed
sleep is minus the wall elapsed; and in the main pipeline the first
record handed to the driver after the header skip and the peek is the
peeked record itself. -/
theorem c10_peek_does_not_consume {L E : Type} (env : SimEnv L E)
    (ifp : InFile L) (sp ps now0 : ℚ) :
    (peek_timestamp env ifp).2 = ifp ∧
      (∀ ts, (peek_timestamp env ifp).1 = some ts →
        (readline ifp).1.bind env.get_timestamp = some ts ∧
        compute_sleep_secs ⟨ts, ps, sp⟩ ts now0 =
          -(secsField (now0 - ps) : ℚ)) ∧
      (∀ (hdr l : L) (rest : List L) (ts : ℚ),
        env.get_timestamp l = some ts →
        runMain env sp ps now0 (hdr :: l :: rest) =
          some (simulate ⟨ts, ps, sp⟩ env (l :: rest) now0 [] [] 0)) := by
  refine ⟨?_, ?_, ?_⟩
  · cases ifp with
    | mk ls p => simp [peek_timestamp, readline, seek, tell]
  · intro ts hts
    exact ⟨hts, compute_sleep_secs_firstObs ⟨ts, ps, sp⟩ now0⟩
  · intro hdr l rest ts hl
    simp [runMain, readline, peek_timestamp, tell, seek, hl]

theorem c10_witness :
    ((peek_timestamp idEnv ⟨[7, 9], 0⟩).2 = ⟨[7, 9], 0⟩ ∧
      (readline (⟨[7, 9], 0⟩ : InFile ℚ)).1.bind idEnv.get_timestamp = some 7 ∧
      compute_sleep_secs ⟨7, 0, 1⟩ 7 0 = -(secsField ((0 : ℚ) - 0) : ℚ)) ∧
      runMain idEnv 1 0 0 [7, 9] =
        some (simulate ⟨9, 0, 1⟩ idEnv [9] 0 [] [] 0) :=
  have h := c10_peek_does_not_consume idEnv (⟨[7, 9], 0⟩ : InFile ℚ) 1 0 0
  ⟨⟨h.1, h.2.1 7 rfl⟩, h.2.2 7 9 [] 9 rfl⟩

end SendSensorData
